import Mathlib

/-!
Verification development for the `forgesetup` declarative bootstrap runner
(`src/forgesetup.py`).  The Python runner is shallowly embedded: strings are
`List Char`, YAML values are the inductive `Val`, the filesystem is an
association map, and process execution is abstracted by an oracle
`Action → Bool` deciding whether a spawned process exits with status 0.
Functions that the Python source runs in unbounded loops are given an explicit
fuel parameter; a `none` result means the bound was exhausted (the source
would still be looping).
-/

set_option autoImplicit false

namespace Forgesetup

/-- Convert a Lean string literal to the `List Char` representation used
throughout the development. -/
def cs (s : String) : List Char := s.toList

/-- YAML-ish dynamic value, mirroring the loosely typed objects
`yaml.safe_load` hands to the runner. -/
inductive Val where
  | vstr : List Char → Val
  | vint : Int → Val
  | vbool : Bool → Val
  | vnull : Val
  | vlist : List Val → Val
  | vdict : List (List Char × Val) → Val

/-- Python truthiness (`bool(v)`) for the embedded values. -/
def pyTruthy : Val → Bool
  | .vstr s => !s.isEmpty
  | .vint n => decide (n ≠ 0)
  | .vbool b => b
  | .vnull => false
  | .vlist l => !l.isEmpty
  | .vdict d => !d.isEmpty

/-- `d.get(k)` on an embedded dict: first binding for the key, if any. -/
def dget (d : List (List Char × Val)) (k : List Char) : Option Val :=
  match d with
  | [] => none
  | (k', v) :: rest => if k' == k then some v else dget rest k

/-- Python `a or b` over optional values: keep `a` when it is truthy,
otherwise fall back to `b`. -/
def pyOrV (a b : Option Val) : Option Val :=
  match a with
  | some v => if pyTruthy v then some v else b
  | none => b

/-- Truthiness of an optional value (`None` is falsy). -/
def pyTruthyO (o : Option Val) : Bool :=
  match o with
  | some v => pyTruthy v
  | none => false

/-- Python `repr` of a value, with fuel bounding the descent into nested
containers (`str` of a container shows the `repr` of its elements). -/
def pyReprF : Nat → Val → List Char
  | _, .vstr s => Char.ofNat 39 :: s ++ [Char.ofNat 39]
  | _, .vint n => cs (toString n)
  | _, .vbool b => if b then cs "True" else cs "False"
  | _, .vnull => cs "None"
  | 0, .vlist _ => []
  | 0, .vdict _ => []
  | _ + 1, .vlist [] => ['[', ']']
  | n + 1, .vlist (x :: xs) =>
    '[' :: pyReprF n x ++ (xs.map (fun y => ',' :: ' ' :: pyReprF n y)).flatten ++ [']']
  | _ + 1, .vdict [] => ['\x7b', '\x7d']
  | n + 1, .vdict ((k, x) :: xs) =>
    '\x7b' :: (pyReprF n (.vstr k) ++ ':' :: ' ' :: pyReprF n x)
      ++ (xs.map (fun kv => ',' :: ' ' :: (pyReprF n (.vstr kv.1) ++ ':' :: ' ' :: pyReprF n kv.2))).flatten
      ++ ['\x7d']

/-- Python `str(v)`: identity on strings, `repr`-based rendering elsewhere. -/
def pyStrF (fuel : Nat) : Val → List Char
  | .vstr s => s
  | v => pyReprF fuel v

/-- Interpolation / guard context: the merged `step_ctx` dictionary
(string keys, arbitrary values, first binding wins). -/
abbrev CtxV := List (List Char × Val)

/-- `str(ctx.get(key, ""))` — the stringified context lookup used by both
`interpolate_string` and the `when` evaluator. -/
def ctxGetStr (fuel : Nat) (ctx : CtxV) (k : List Char) : List Char :=
  match dget ctx k with
  | some v => pyStrF fuel v
  | none => []

/-- Character class of Python's regex `\s`. -/
def pyIsSpace (c : Char) : Bool :=
  c == ' ' || c == '\t' || c == '\n' || c == '\r' || c == '\x0c' || c == '\x0b'

/-- Character class `[A-Za-z_]` (identifier start). -/
def isIdentStart (c : Char) : Bool := c.isAlpha || c == '_'

/-- Character class `[A-Za-z0-9_]` (identifier continuation). -/
def isIdentCont (c : Char) : Bool := c.isAlphanum || c == '_'

/-- Take a maximal nonempty identifier `[A-Za-z_][A-Za-z0-9_]*` from the head
of the input; returns the identifier and the rest. -/
def takeIdent : List Char → Option (List Char × List Char)
  | [] => none
  | c :: rest =>
    if isIdentStart c then
      some (c :: rest.takeWhile isIdentCont, rest.dropWhile isIdentCont)
    else none

/-- Match the regex `\{\{\s*([A-Za-z_][A-Za-z0-9_]*)\s*\}\}` at the head of
the input; returns the captured identifier and the suffix after the match. -/
def matchTok1 : List Char → Option (List Char × List Char)
  | '{' :: '{' :: r1 =>
    match takeIdent (r1.dropWhile pyIsSpace) with
    | some (k, r2) =>
      match r2.dropWhile pyIsSpace with
      | '}' :: '}' :: r3 => some (k, r3)
      | _ => none
    | none => none
  | _ => none

/-- Match the regex `\$\{([A-Za-z_][A-Za-z0-9_]*)\}` at the head of the
input. -/
def matchTok2 : List Char → Option (List Char × List Char)
  | '$' :: '{' :: r1 =>
    match takeIdent r1 with
    | some (k, r2) =>
      match r2 with
      | '}' :: r3 => some (k, r3)
      | _ => none
    | none => none
  | _ => none

/-- `pat.search` for the `\x7b\x7bVAR\x7d\x7d` pattern: leftmost match,
returned as `(text before, captured name, text after)`. -/
def findTok1 : List Char → Option (List Char × List Char × List Char)
  | [] => none
  | c :: rest =>
    match matchTok1 (c :: rest) with
    | some (k, after) => some ([], k, after)
    | none =>
      match findTok1 rest with
      | some (b, k, a) => some (c :: b, k, a)
      | none => none

/-- `pat.search` for the `${VAR}` pattern: leftmost match. -/
def findTok2 : List Char → Option (List Char × List Char × List Char)
  | [] => none
  | c :: rest =>
    match matchTok2 (c :: rest) with
    | some (k, after) => some ([], k, after)
    | none =>
      match findTok2 rest with
      | some (b, k, a) => some (c :: b, k, a)
      | none => none

/-- The `while True` re-scan loop of `interpolate_string` for the
`\x7b\x7bVAR\x7d\x7d` pattern, with fuel: replace the leftmost match by
`str(ctx.get(key, ""))` and re-scan.  `none` = fuel exhausted (the Python
loop is still running). -/
def loopTok1 (sf : Nat) (ctx : CtxV) : Nat → List Char → Option (List Char)
  | 0, _ => none
  | n + 1, s =>
    match findTok1 s with
    | none => some s
    | some (b, k, a) => loopTok1 sf ctx n (b ++ ctxGetStr sf ctx k ++ a)

/-- The re-scan loop for the `${VAR}` pattern. -/
def loopTok2 (sf : Nat) (ctx : CtxV) : Nat → List Char → Option (List Char)
  | 0, _ => none
  | n + 1, s =>
    match findTok2 s with
    | none => some s
    | some (b, k, a) => loopTok2 sf ctx n (b ++ ctxGetStr sf ctx k ++ a)

/-- `interpolate_string(s, ctx)`: run the `\x7b\x7bVAR\x7d\x7d` loop to
exhaustion, then the `${VAR}` loop, in that order (the order of
`VAR_PATTERNS`). -/
def interpolateString (fuel : Nat) (ctx : CtxV) (s : List Char) : Option (List Char) :=
  match loopTok1 fuel ctx fuel s with
  | none => none
  | some s1 => loopTok2 fuel ctx fuel s1

/-- `deep_interpolate(obj, ctx)`: interpolate strings, recurse through lists
and dicts preserving their shape, pass other values through.  Fuel bounds
both the recursion depth and the inner interpolation loops. -/
def deepInterpolate : Nat → CtxV → Val → Option Val
  | 0, _, _ => none
  | n + 1, ctx, v =>
    match v with
    | .vstr s => (interpolateString (n + 1) ctx s).map Val.vstr
    | .vlist [] => some (.vlist [])
    | .vlist (x :: xs) =>
      match deepInterpolate n ctx x, deepInterpolate n ctx (.vlist xs) with
      | some x', some (.vlist xs') => some (.vlist (x' :: xs'))
      | _, _ => none
    | .vdict [] => some (.vdict [])
    | .vdict ((k, x) :: xs) =>
      match deepInterpolate n ctx x, deepInterpolate n ctx (.vdict xs) with
      | some x', some (.vdict xs') => some (.vdict ((k, x') :: xs'))
      | _, _ => none
    | .vint z => some (.vint z)
    | .vbool b => some (.vbool b)
    | .vnull => some .vnull

/-! ## Condition evaluator (`when` guards) -/

/-- Drop a maximal run of `p`-characters from the end of a list. -/
def dropEndWhile (p : Char → Bool) (l : List Char) : List Char :=
  (l.reverse.dropWhile p).reverse

/-- Python `str.strip(c)`: drop all copies of `c` from both ends. -/
def stripAllChar (c : Char) (l : List Char) : List Char :=
  dropEndWhile (· == c) (l.dropWhile (· == c))

/-- The VALUE part of a guard after the operator: the regex fragment
`\s*(.+?)\s*$` (note `.` does not match a newline, and `$` may sit before one
final newline), followed by the source's `.strip().strip(chr(34)).strip(chr(39))`. -/
def parseWhenVal (k : List Char) (isEq : Bool) (r3 : List Char) : Option (List Char × Bool × List Char) :=
  let core := dropEndWhile pyIsSpace (r3.dropWhile pyIsSpace)
  if core.isEmpty then
    -- all-whitespace remainder: the lazy `.+?` must still consume one
    -- non-newline character, and the stripped value is empty
    if r3.any (fun c => pyIsSpace c && !(c == '\n')) then some (k, isEq, [])
    else none
  else
    if core.contains '\n' then none
    else some (k, isEq, stripAllChar (Char.ofNat 39) (stripAllChar '"' core))

/-- Parse a guard against `^\s*([A-Za-z_][A-Za-z0-9_]*)\s*(==|!=)\s*(.+?)\s*$`,
returning `(key, operator-is-equality, stripped value)`; `none` = no match. -/
def parseWhen (w : List Char) : Option (List Char × Bool × List Char) :=
  match takeIdent (w.dropWhile pyIsSpace) with
  | none => none
  | some (k, r1) =>
    match r1.dropWhile pyIsSpace with
    | '=' :: '=' :: r3 => parseWhenVal k true r3
    | '!' :: '=' :: r3 => parseWhenVal k false r3
    | _ => none

/-- Evaluate a `when` guard: compare `str(step_ctx.get(k, ""))` with the
parsed value; an unparseable guard evaluates to `false`. -/
def evalWhen (fuel : Nat) (ctx : CtxV) (w : List Char) : Bool :=
  match parseWhen w with
  | some (k, isEq, v) =>
    let actual := ctxGetStr fuel ctx k
    if isEq then actual == v else !(actual == v)
  | none => false

/-! ## Process executor -/

/-- An external process invocation.  The working directory and environment do
not influence which branch dispatches, so they are abstracted away; whether a
spawned process exits 0 is decided by an oracle `Action → Bool`. -/
inductive Action where
  | execArgv : List Val → Action
  | execShell : List Char → List Char → Action
  | execClone : List Char → List Char → Action

/-- `safe_run_command(item, shell_kind, ...)`: a dict carrying `argv`
dispatches to argv execution (after checking `argv` is a list), a string
dispatches to the platform shell, anything else raises `ValueError`. -/
def safe_run_command (item : Val) (shellKind : List Char) : Except (List Char) Action :=
  match item with
  | .vdict d =>
    match dget d (cs "argv") with
    | some a =>
      match a with
      | .vlist l => .ok (.execArgv l)
      | _ => .error (cs "argv must be a list")
    | none => .error (cs "Unsupported run item type; use string or argv mapping.")
  | .vstr s => .ok (.execShell s shellKind)
  | _ => .error (cs "Unsupported run item type; use string or argv mapping.")

/-! ## Repo resolver -/

/-- `https://github.com/{org}/{name}.git` -/
def ghUrl (org nm : List Char) : List Char :=
  cs "https://github.com/" ++ org ++ '/' :: nm ++ cs ".git"

/-- `https://github.com/{name}.git` (org/name shorthand). -/
def ghShort (nm : List Char) : List Char :=
  cs "https://github.com/" ++ nm ++ cs ".git"

/-- The fall-through of `resolve_repo_url` once `entry["url"]` is absent or
falsy: a truthy `entry["name"]` is required; then
`entry.get("org") or default_org` is used when truthy; otherwise a name
containing a slash is org/name shorthand; otherwise resolution fails. -/
def resolveFromName (fuel : Nat) (entry : List (List Char × Val)) (defaultOrg : Option Val) :
    Except (List Char) Val :=
  match dget entry (cs "name") with
  | none => .error (cs "repo entry must contain url or name")
  | some nv =>
    if !pyTruthy nv then .error (cs "repo entry must contain url or name")
    else
      match pyOrV (dget entry (cs "org")) defaultOrg with
      | some ov =>
        if pyTruthy ov then .ok (.vstr (ghUrl (pyStrF fuel ov) (pyStrF fuel nv)))
        else
          match nv with
          | .vstr n =>
            if n.contains '/' then .ok (.vstr (ghShort n))
            else .error (cs "No org provided and default_org not set; cannot resolve repo URL")
          | _ => .error (cs "TypeError: argument of type is not iterable")
      | none =>
        match nv with
        | .vstr n =>
          if n.contains '/' then .ok (.vstr (ghShort n))
          else .error (cs "No org provided and default_org not set; cannot resolve repo URL")
        | _ => .error (cs "TypeError: argument of type is not iterable")

/-- `resolve_repo_url(entry, default_org)`.  A truthy `entry["url"]` is
returned verbatim, otherwise resolution falls through to the org/name
rules.  Any `.error` corresponds to an exception escaping the Python
function. -/
def resolve_repo_url (fuel : Nat) (entry : List (List Char × Val)) (defaultOrg : Option Val) :
    Except (List Char) Val :=
  match dget entry (cs "url") with
  | some u =>
    if pyTruthy u then .ok u
    else resolveFromName fuel entry defaultOrg
  | none => resolveFromName fuel entry defaultOrg

/-! ## Filesystem and `write_file` -/

/-- Flat filesystem model: file contents, existing directories, and the
permission bits recorded by successful `chmod` calls. -/
structure FS where
  files : List (List Char × List Char)
  dirs : List (List Char)
  perms : List (List Char × List Char)

/-- Dictionary update: bind `k` to `v`, dropping any previous binding. -/
def aset (m : List (List Char × List Char)) (k v : List Char) : List (List Char × List Char) :=
  (k, v) :: m.filter (fun kv => !(kv.1 == k))

/-- Association lookup with `List Char` keys (used for file contents). -/
def aget (m : List (List Char × List Char)) (k : List Char) : Option (List Char) :=
  match m with
  | [] => none
  | (k', v) :: rest => if k' == k then some v else aget rest k

/-- `Path(p).expanduser()` relative to the (possibly overridden) home. -/
def expandUser (home p : List Char) : List Char :=
  match p with
  | '~' :: rest =>
    match rest with
    | [] => home
    | '/' :: _ => home ++ rest
    | _ => p
  | _ => p

/-- The parent path: everything before the last `/` (empty when none). -/
def parentDir (p : List Char) : List Char :=
  match p.reverse.dropWhile (fun c => !(c == '/')) with
  | _ :: rest => rest.reverse
  | [] => []

/-- All ancestor directories of a path (`mkdir(parents=True)`). -/
def ancestorsAux : Nat → List Char → List (List Char)
  | 0, _ => []
  | n + 1, p =>
    let q := parentDir p
    if q.isEmpty then [] else q :: ancestorsAux n q

/-- Directories created by `path.parent.mkdir(parents=True, exist_ok=True)`. -/
def parentsOf (p : List Char) : List (List Char) := ancestorsAux p.length p

/-- `Path(p).exists()` over the model. -/
def fsExists (fs : FS) (p : List Char) : Bool :=
  (aget fs.files p).isSome || fs.dirs.contains p

/-- `write_file(path, content, mode, append)`: expand `~`, create parent
directories, append only when the target already exists, then best-effort
`chmod` — a chmod failure (`chmodFails`) is swallowed and never affects the
write.  The function is total: no error can escape it besides the write
itself, which the model treats as succeeding. -/
def write_file (fuel : Nat) (fs : FS) (home path content : List Char)
    (mode : Option Val) (append chmodFails : Bool) : FS :=
  let p := expandUser home path
  let fs1 : FS := { fs with dirs := parentsOf p ++ fs.dirs }
  let newC :=
    match aget fs1.files p with
    | some oldC => if append then oldC ++ content else content
    | none => content
  let fs2 : FS := { fs1 with files := aset fs1.files p newC }
  match mode with
  | some m =>
    if pyTruthy m then
      if chmodFails then fs2
      else { fs2 with perms := aset fs2.perms p (pyStrF fuel m) }
    else fs2
  | none => fs2

/-! ## Step engine -/

/-- Observable events of a run, in emission order. -/
inductive Ev where
  | banner : List Char → Ev
  | exec : Action → Ev
  | postExec : Action → Ev
  | cloneEv : List Char → List Char → Ev
  | skipCloneMsg : List Char → Ev
  | writeEv : List Char → Ev
  | errMsg : List Char → Ev
  | contMsg : Ev
  | noopMsg : Ev
  | dryMsg : List Char → Ev
  | doneMsg : Ev

/-- How a run terminates abnormally. -/
inductive RunErr where
  | procErr : RunErr
  | sysExit : List Char → RunErr
  | configErr : List Char → RunErr
  | typeErr : RunErr
  | keyErr : RunErr
  | hang : RunErr

/-- Per-run configuration shared by every step (closure of `run_spec`'s
locals over the step loop). -/
structure RunCfg where
  oracle : Action → Bool
  dryRun : Bool
  osKey : List Char
  home : List Char
  specInputs : List (List Char × Val)
  stepCtx : CtxV
  defaultShell : List Char
  chmodFails : Bool
  fuel : Nat

/-- The `for itm in run_items` loop: dispatch each item through
`safe_run_command`; a `ValueError` propagates immediately; a failing process
aborts unless `continue_on_error`, which logs and moves to the next item. -/
def runItemsLoop (cfg : RunCfg) (coe : Bool) (sk : List Char) : List Val → List Ev × Option RunErr
  | [] => ([], none)
  | itm :: rest =>
    match safe_run_command itm sk with
    | .error e => ([], some (.configErr e))
    | .ok act =>
      if cfg.oracle act then
        let r := runItemsLoop cfg coe sk rest
        (.exec act :: r.1, r.2)
      else if coe then
        let r := runItemsLoop cfg coe sk rest
        (.exec act :: .errMsg (cs "run item failed") :: .contMsg :: r.1, r.2)
      else ([.exec act, .errMsg (cs "run item failed")], some .procErr)

/-- The action a `post_install` item dispatches to: a dict with `argv` runs
directly (no list check in the source — a non-list crashes in `subprocess`,
modelled as `none`), anything else is `str()`-ed and run under the shell. -/
def postActOf (cfg : RunCfg) (sk : List Char) (p : Val) : Option Action :=
  match p with
  | .vdict pd =>
    match dget pd (cs "argv") with
    | some (.vlist l) => some (.execArgv l)
    | some _ => none
    | none => some (.execShell (pyStrF cfg.fuel p) sk)
  | _ => some (.execShell (pyStrF cfg.fuel p) sk)

def postLoop (cfg : RunCfg) (coe : Bool) (sk : List Char) : List Val → List Ev × Option RunErr
  | [] => ([], none)
  | p :: rest =>
    match postActOf cfg sk p with
    | none => ([], some .typeErr)
    | some act =>
      if cfg.oracle act then
        let r := postLoop cfg coe sk rest
        (.postExec act :: r.1, r.2)
      else if coe then
        let r := postLoop cfg coe sk rest
        (.postExec act :: .errMsg (cs "post_install failed") :: r.1, r.2)
      else ([.postExec act, .errMsg (cs "post_install failed")], some .procErr)

/-- `url.rstrip(chr(47))` -/
def rstripSlash (u : List Char) : List Char := dropEndWhile (· == '/') u

/-- Final `/`-separated segment. -/
def lastSeg (u : List Char) : List Char := (u.reverse.takeWhile (fun c => !(c == '/'))).reverse

/-- `Path(s).stem`: drop the suffix introduced by the last dot, unless the
dot is the leading character or there is none. -/
def stemOf (s : List Char) : List Char :=
  match s.reverse.dropWhile (fun c => !(c == '.')) with
  | '.' :: rest => if rest.isEmpty then s else rest.reverse
  | _ => s

/-- Local directory name derived from a clone URL. -/
def stemOfUrl (u : List Char) : List Char := stemOf (lastSeg (rstripSlash u))

/-- `entry.get("post_install") or []`, which must be a list to iterate. -/
def postItemsOf (ed : List (List Char × Val)) : Option (List Val) :=
  match pyOrV (dget ed (cs "post_install")) (some (.vlist [])) with
  | some (.vlist l) => some l
  | _ => none

/-- `entry.get("name") or Path(url.rstrip(chr(47)).split(chr(47))[-1]).stem` -/
def cloneNameOf (fuel : Nat) (ed : List (List Char × Val)) (url : List Char) : List Char :=
  match dget ed (cs "name") with
  | some v => if pyTruthy v then pyStrF fuel v else stemOfUrl url
  | none => stemOfUrl url

/-- The `for entry in repos` loop: resolve the URL (any failure becomes a
`SystemExit`), derive the target directory, clone unless the target exists
(silent no-op), then run `post_install`; clone and post-install failures obey
`continue_on_error`. -/
def cloneEntriesLoop (cfg : RunCfg) (coe : Bool) (sk destPath : List Char)
    (defaultOrg : Option Val) : FS → List Val → List Ev × FS × Option RunErr
  | fs, [] => ([], fs, none)
  | fs, e :: rest =>
    match e with
    | .vdict ed =>
      match resolve_repo_url cfg.fuel ed defaultOrg with
      | .error _ => ([], fs, some (.sysExit (cs "repo resolution error")))
      | .ok urlV =>
        match urlV with
        | .vstr url =>
          let nm := cloneNameOf cfg.fuel ed url
          let target := destPath ++ '/' :: nm
          if fsExists fs target then
            let r := cloneEntriesLoop cfg coe sk destPath defaultOrg fs rest
            (Ev.skipCloneMsg target :: r.1, r.2)
          else
            let fs1 : FS := { fs with dirs := parentsOf target ++ fs.dirs }
            if cfg.oracle (.execClone url target) then
              let fs2 : FS := { fs1 with dirs := target :: fs1.dirs }
              match postItemsOf ed with
              | none => (Ev.cloneEv url target :: [], fs2, some .typeErr)
              | some post =>
                let pr := postLoop cfg coe sk post
                match pr.2 with
                | some err => (Ev.cloneEv url target :: pr.1, fs2, some err)
                | none =>
                  let r := cloneEntriesLoop cfg coe sk destPath defaultOrg fs2 rest
                  (Ev.cloneEv url target :: pr.1 ++ r.1, r.2)
            else
              if coe then
                let r := cloneEntriesLoop cfg coe sk destPath defaultOrg fs1 rest
                (Ev.cloneEv url target :: Ev.errMsg (cs "git clone failed") :: r.1, r.2)
              else
                ([Ev.cloneEv url target, Ev.errMsg (cs "git clone failed")], fs1, some .procErr)
        | _ => ([], fs, some .typeErr)
    | _ => ([], fs, some .typeErr)

/-- `f"step-{idx}"` -/
def defaultStepName (idx : Nat) : List Char := cs "step-" ++ cs (toString idx)

/-- `step.get("name") or f"step-{idx}"` -/
def stepNameOf (cfg : RunCfg) (idx : Nat) (sd : List (List Char × Val)) : List Char :=
  match dget sd (cs "name") with
  | some v => if pyTruthy v then pyStrF cfg.fuel v else defaultStepName idx
  | none => defaultStepName idx

/-- `step.get("shell") or default_shell` -/
def shellKindOf (cfg : RunCfg) (sd : List (List Char × Val)) : List Char :=
  match dget sd (cs "shell") with
  | some v => if pyTruthy v then pyStrF cfg.fuel v else cfg.defaultShell
  | none => cfg.defaultShell

/-- `bool(step.get("continue_on_error", False))` -/
def coeOf (sd : List (List Char × Val)) : Bool :=
  match dget sd (cs "continue_on_error") with
  | some v => pyTruthy v
  | none => false

/-- Process one (already deep-interpolated) step dict: resolve the display
name, evaluate the `when` guard (silent skip on false), print the banner,
then dispatch on `write_file` / `clone_repos` / `run` in that order. -/
def runStepCore (cfg : RunCfg) (fs : FS) (idx : Nat) (sd : List (List Char × Val)) :
    List Ev × FS × Option RunErr :=
  let name := stepNameOf cfg idx sd
  let proceed : Option Bool :=
    match dget sd (cs "when") with
    | none => some true
    | some v =>
      if !pyTruthy v then some true
      else
        match v with
        | .vstr w => some (evalWhen cfg.fuel cfg.stepCtx w)
        | _ => none
  match proceed with
  | none => ([], fs, some .typeErr)
  | some false => ([], fs, none)
  | some true =>
    let tr0 := [Ev.banner name]
    let shellKind := shellKindOf cfg sd
    let coe := coeOf sd
    match dget sd (cs "write_file") with
    | some wfv =>
      match wfv with
      | .vdict wd =>
        match dget wd (cs "path") with
        | none => (tr0, fs, some .keyErr)
        | some pv =>
          match pv with
          | .vstr p =>
            let contentO : Option (List Char) :=
              match dget wd (cs "content") with
              | none => some []
              | some (.vstr c) => some c
              | some _ => none
            match contentO with
            | none => (tr0, fs, some .typeErr)
            | some c =>
              let app :=
                match dget wd (cs "append") with
                | some v => pyTruthy v
                | none => false
              let mode := dget wd (cs "mode")
              if cfg.dryRun then (tr0 ++ [Ev.dryMsg p], fs, none)
              else
                (tr0 ++ [Ev.writeEv (expandUser cfg.home p)],
                 write_file cfg.fuel fs cfg.home p c mode app cfg.chmodFails, none)
          | _ => (tr0, fs, some .typeErr)
      | _ => (tr0, fs, some .typeErr)
    | none =>
      match dget sd (cs "clone_repos") with
      | some crv =>
        match crv with
        | .vdict cr =>
          let defaultOrg := pyOrV (dget cr (cs "default_org")) (dget cfg.specInputs (cs "DEFAULT_ORG"))
          let destO :=
            if cfg.osKey == cs "windows" then dget cr (cs "dest_windows")
            else dget cr (cs "dest_unix")
          if !pyTruthyO destO then
            (tr0, fs, some (.sysExit (cs "clone_repos must specify dest_unix or dest_windows")))
          else
            match destO with
            | some (.vstr ds) =>
              match interpolateString cfg.fuel cfg.stepCtx ds with
              | none => (tr0, fs, some .hang)
              | some ds' =>
                let destPath := expandUser cfg.home ds'
                let reposO : Option (List Val) :=
                  match dget cr (cs "repos") with
                  | none => some []
                  | some (.vlist l) => some l
                  | some _ => none
                match reposO with
                | none => (tr0, fs, some .typeErr)
                | some repos =>
                  if cfg.dryRun then (tr0 ++ [Ev.dryMsg destPath], fs, none)
                  else
                    let r := cloneEntriesLoop cfg coe shellKind destPath defaultOrg fs repos
                    (tr0 ++ r.1, r.2)
            | _ => (tr0, fs, some .typeErr)
        | _ => (tr0, fs, some .typeErr)
      | none =>
        match dget sd (cs "run") with
        | none => (tr0 ++ [Ev.noopMsg], fs, none)
        | some .vnull => (tr0 ++ [Ev.noopMsg], fs, none)
        | some (.vlist items) =>
          if cfg.dryRun then (tr0 ++ items.map (fun i => Ev.dryMsg (pyStrF cfg.fuel i)), fs, none)
          else
            let r := runItemsLoop cfg coe shellKind items
            (tr0 ++ r.1, fs, r.2)
        | some _ => (tr0, fs, some (.sysExit (cs "run must be a list")))

/-- One iteration of the step loop: deep-interpolate the raw step against
the merged context, then process it (a non-dict step crashes on `step.get`). -/
def runStepOne (cfg : RunCfg) (fs : FS) (idx : Nat) (st : Val) : List Ev × FS × Option RunErr :=
  match deepInterpolate cfg.fuel cfg.stepCtx st with
  | none => ([], fs, some .hang)
  | some (.vdict sd) => runStepCore cfg fs idx sd
  | some _ => ([], fs, some .typeErr)

/-- The `for idx, raw_step in enumerate(steps, start=1)` loop: process each
step in order and stop the whole run on any unabsorbed error. -/
def runStepsAux (cfg : RunCfg) : FS → Nat → List Val → List Ev × FS × Option RunErr
  | fs, _, [] => ([], fs, none)
  | fs, idx, st :: rest =>
    let r := runStepOne cfg fs idx st
    match r.2.2 with
    | none =>
      let rr := runStepsAux cfg r.2.1 (idx + 1) rest
      (r.1 ++ rr.1, rr.2)
    | some e => (r.1, r.2.1, some e)

/-- `spec.get(k, default-dict) or default-dict` -/
def vdictOf (o : Option Val) : List (List Char × Val) :=
  match o with
  | some (.vdict d) => d
  | _ => []

/-- `x.get("steps", []) or []` -/
def vlistOf (o : Option Val) : List Val :=
  match o with
  | some (.vlist l) => l
  | _ => []

/-- `(spec.get("common", default) or default).get("steps", []) or []` -/
def specCommonSteps (spec : List (List Char × Val)) : List Val :=
  vlistOf (dget (vdictOf (dget spec (cs "common"))) (cs "steps"))

/-- `((spec.get("os", default) or default).get(os_key, default) or default).get("steps", []) or []` -/
def specOsSteps (spec : List (List Char × Val)) (osKey : List Char) : List Val :=
  vlistOf (dget (vdictOf (dget (vdictOf (dget spec (cs "os"))) osKey)) (cs "steps"))

/-- `steps = common_steps + os_steps` -/
def stepsOf (spec : List (List Char × Val)) (osKey : List Char) : List Val :=
  specCommonSteps spec ++ specOsSteps spec osKey

/-- `merge_envs(*maps)`: later maps override earlier ones, values are
`str()`-ed (first binding wins in the association-list representation). -/
def mergeEnvs (fuel : Nat) (maps : List (List (List Char × Val))) : List (List Char × List Char) :=
  maps.reverse.flatten.map (fun kv => (kv.1, pyStrF fuel kv.2))

/-- Interpolate every merged-environment value against `ctx ∪ merged_env`
(the pre-interpolation environment, as in the source's dict comprehension). -/
def interpEnv (fuel : Nat) (ictx : CtxV) : List (List Char × List Char) → Option (List (List Char × List Char))
  | [] => some []
  | (k, v) :: rest =>
    match interpolateString fuel ictx v, interpEnv fuel ictx rest with
    | some v', some rest' => some ((k, v') :: rest')
    | _, _ => none

/-- `run_spec` from the point the spec document is loaded: build the
context (`inputs` ∪ overrides, `OS` injected last), merge and interpolate the
environment, concatenate `common.steps` with the active OS's steps, and run
them in order; `"All steps complete."` is printed only when no unrecovered
failure occurred.  (The source applies no workspace-root guard.) -/
def runSpecModel (oracle : Action → Bool) (dryRun chmodFails : Bool) (osKey home : List Char)
    (procEnv : List (List Char × Val)) (overrides : List (List Char × Val)) (fuel : Nat)
    (specV : Val) (fs : FS) : List Ev × FS × Option RunErr :=
  match specV with
  | .vdict spec =>
    let inputs := vdictOf (dget spec (cs "inputs"))
    let ctx0 : CtxV := (cs "OS", Val.vstr osKey) :: (overrides ++ inputs)
    let envGlobal := vdictOf (dget spec (cs "env"))
    let envOs := vdictOf (dget (vdictOf (dget (vdictOf (dget spec (cs "os"))) osKey)) (cs "env"))
    let merged0 := mergeEnvs fuel [procEnv, envGlobal, envOs]
    let ictx : CtxV := (merged0.map (fun kv => (kv.1, Val.vstr kv.2))) ++ ctx0
    match interpEnv fuel ictx merged0 with
    | none => ([], fs, some .hang)
    | some mergedEnv =>
      let stepCtx : CtxV := (mergedEnv.map (fun kv => (kv.1, Val.vstr kv.2))) ++ ctx0
      let cfg : RunCfg :=
        { oracle := oracle, dryRun := dryRun, osKey := osKey, home := home,
          specInputs := inputs, stepCtx := stepCtx,
          defaultShell := if osKey == cs "windows" then cs "powershell" else cs "bash",
          chmodFails := chmodFails, fuel := fuel }
      let r := runStepsAux cfg fs 1 (stepsOf spec osKey)
      match r.2.2 with
      | none => (r.1 ++ [Ev.doneMsg], r.2.1, none)
      | some e => (r.1, r.2.1, some e)
  | _ => ([], fs, some .typeErr)

/-! ## Event discriminators -/

/-- Is this event a run-list process execution? -/
def Ev.isExec : Ev → Bool
  | .exec _ => true
  | _ => false

/-- Is this event a post-install process execution? -/
def Ev.isPostExec : Ev → Bool
  | .postExec _ => true
  | _ => false

/-- Is this event a clone invocation? -/
def Ev.isCloneEv : Ev → Bool
  | .cloneEv _ _ => true
  | _ => false

/-- Is this event a file write? -/
def Ev.isWriteEv : Ev → Bool
  | .writeEv _ => true
  | _ => false

/-- Is this event the no-op marker? -/
def Ev.isNoopMsg : Ev → Bool
  | .noopMsg => true
  | _ => false

/-! ## Concrete inputs used by the claim theorems -/

/-- Oracle under which every spawned process succeeds. -/
def allOkOracle : Action → Bool := fun _ => true

/-- The empty filesystem. -/
def emptyFS : FS := ⟨[], [], []⟩

/-- A step consisting of one shell run-item. -/
def mkRunStep (nm cmd : String) : Val :=
  .vdict [(cs "name", .vstr (cs nm)), (cs "run", .vlist [.vstr (cs cmd)])]

/-- The literal string `\x7b\x7bA\x7d\x7d`. -/
def selfTok : List Char := ['{', '{', 'A', '}', '}']

/-- A context whose value for `A` is itself the token `\x7b\x7bA\x7d\x7d`. -/
def selfCtx : CtxV := [(cs "A", Val.vstr selfTok)]

/-- The literal string `\x7b${A\x7d\x7bB\x7d\x7d`: replacing `${A}` by the
empty string splices the surrounding braces into a fresh
`\x7b\x7bB\x7d\x7d` token. -/
def spliceStr : List Char := ['{', '$', '{', 'A', '}', '{', 'B', '}', '}']

/-- Context for the splice example: both `A` and `B` are present. -/
def spliceCtx : CtxV := [(cs "A", Val.vstr []), (cs "B", Val.vstr (cs "x"))]

/-- A run configuration for an Ubuntu host with an all-success oracle. -/
def baseCfg : RunCfg :=
  ⟨fun _ => true, false, cs "ubuntu", cs "/h", [], [(cs "OS", Val.vstr (cs "ubuntu"))],
   cs "bash", false, 30⟩

/-- A step whose `when` guard is the empty string and which carries a
run action. -/
def emptyWhenStep : List (List Char × Val) :=
  [(cs "name", Val.vstr (cs "Guarded")), (cs "when", Val.vstr []),
   (cs "run", Val.vlist [Val.vstr (cs "echo hi")])]

/-- The spec of the repository's workspace-root guard test: a
`WORKSPACE_ROOT` input pointing at `~/dev/workspace` and one dummy step. -/
def guardSpec : Val :=
  .vdict [
    (cs "inputs", .vdict [(cs "WORKSPACE_ROOT", .vstr (cs "~/dev/workspace"))]),
    (cs "common", .vdict [(cs "steps", .vlist [mkRunStep "Dummy step" "echo should-not-run"])])]

/-- A filesystem on which the workspace root `~/dev/workspace` (with home
`/h`) already exists as a directory. -/
def guardFS : FS := ⟨[], [cs "/h/dev/workspace"], []⟩

/-- Spec with `common.steps=[A,B]` and `os.ubuntu.steps=[C,D]`. -/
def orderSpec : Val :=
  .vdict [
    (cs "common", .vdict [(cs "steps", .vlist
      [mkRunStep "A" "echo A", mkRunStep "B" "echo B"])]),
    (cs "os", .vdict [(cs "ubuntu", .vdict [(cs "steps", .vlist
      [mkRunStep "C" "echo C", mkRunStep "D" "echo D"])])])]

/-- The given key is absent from the entry, or bound to a Python-falsy
value (`""`, `0`, `False`, `None`, empty containers). -/
def keyFalsyIn (e : List (List Char × Val)) (k : List Char) : Prop :=
  dget e k = none ∨ ∃ v, dget e k = some v ∧ pyTruthy v = false

/-- An optional value that Python would treat as falsy. -/
def optFalsy (d : Option Val) : Prop :=
  d = none ∨ ∃ v, d = some v ∧ pyTruthy v = false

/-! ## Helper lemmas -/

theorem aget_aset_self (m : List (List Char × List Char)) (k v : List Char) :
    aget (aset m k v) k = some v := by
  simp [aget, aset]

theorem loopTok2_no_leftover {sf : Nat} {ctx : CtxV} :
    ∀ {n : Nat} {s r : List Char}, loopTok2 sf ctx n s = some r → findTok2 r = none := by
  intro n
  induction n with
  | zero => intro s r h; exact absurd h (by simp [loopTok2])
  | succ n ih =>
    intro s r h
    unfold loopTok2 at h
    cases hf : findTok2 s with
    | none => rw [hf] at h; cases h; exact hf
    | some t => rw [hf] at h; exact ih h

theorem deepInterpolate_vlist_shape :
    ∀ (l : List Val) (fuel : Nat) (ctx : CtxV) (w : Val),
      deepInterpolate fuel ctx (.vlist l) = some w →
      ∃ l', w = .vlist l' ∧ l'.length = l.length := by
  intro l
  induction l with
  | nil =>
    intro fuel ctx w h
    cases fuel with
    | zero => exact absurd h (by simp [deepInterpolate])
    | succ n =>
      simp only [deepInterpolate, Option.some.injEq] at h
      exact ⟨[], h.symm, rfl⟩
  | cons x xs ih =>
    intro fuel ctx w h
    cases fuel with
    | zero => exact absurd h (by simp [deepInterpolate])
    | succ n =>
      simp only [deepInterpolate] at h
      cases h1 : deepInterpolate n ctx x with
      | none => rw [h1] at h; exact absurd h (by simp)
      | some x' =>
        cases h2 : deepInterpolate n ctx (.vlist xs) with
        | none => rw [h1, h2] at h; exact absurd h (by simp)
        | some wxs =>
          rw [h1, h2] at h
          cases wxs with
          | vlist xs' =>
            simp only [Option.some.injEq] at h
            obtain ⟨l'', hw, hlen⟩ := ih n ctx (.vlist xs') h2
            cases hw
            exact ⟨x' :: xs', h.symm, by simp [hlen]⟩
          | vstr s => exact absurd h (by simp)
          | vint z => exact absurd h (by simp)
          | vbool b => exact absurd h (by simp)
          | vnull => exact absurd h (by simp)
          | vdict d => exact absurd h (by simp)

theorem deepInterpolate_vdict_keys :
    ∀ (d : List (List Char × Val)) (fuel : Nat) (ctx : CtxV) (w : Val),
      deepInterpolate fuel ctx (.vdict d) = some w →
      ∃ d', w = .vdict d' ∧ d'.map Prod.fst = d.map Prod.fst := by
  intro d
  induction d with
  | nil =>
    intro fuel ctx w h
    cases fuel with
    | zero => exact absurd h (by simp [deepInterpolate])
    | succ n =>
      simp only [deepInterpolate, Option.some.injEq] at h
      exact ⟨[], h.symm, rfl⟩
  | cons kx xs ih =>
    intro fuel ctx w h
    cases fuel with
    | zero => exact absurd h (by simp [deepInterpolate])
    | succ n =>
      obtain ⟨k, x⟩ := kx
      simp only [deepInterpolate] at h
      cases h1 : deepInterpolate n ctx x with
      | none => rw [h1] at h; exact absurd h (by simp)
      | some x' =>
        cases h2 : deepInterpolate n ctx (.vdict xs) with
        | none => rw [h1, h2] at h; exact absurd h (by simp)
        | some wxs =>
          rw [h1, h2] at h
          cases wxs with
          | vdict xs' =>
            simp only [Option.some.injEq] at h
            obtain ⟨d'', hw, hkeys⟩ := ih n ctx (.vdict xs') h2
            cases hw
            exact ⟨(k, x') :: xs', h.symm, by simp [hkeys]⟩
          | vstr s => exact absurd h (by simp)
          | vint z => exact absurd h (by simp)
          | vbool b => exact absurd h (by simp)
          | vnull => exact absurd h (by simp)
          | vlist l => exact absurd h (by simp)

/-! ## Claim theorems -/

/-- C2: the claim states that `interpolate_string`'s re-scan loop is bounded
so that no self-referential context value can make it loop forever.  The
code has no such bound: with context `A ↦ "\x7b\x7bA\x7d\x7d"` and input
`"\x7b\x7bA\x7d\x7d"`, each pass rewrites the string to itself, so for every
finite pass budget the loop has still not terminated — the Python `while
True` loop runs forever. -/
theorem c2_self_referential_interpolation_loops_forever :
    ∀ sf n : Nat, loopTok1 sf selfCtx n selfTok = none ∧
      interpolateString n selfCtx selfTok = none := by
  have h : ∀ sf n : Nat, loopTok1 sf selfCtx n selfTok = none := by
    intro sf n
    induction n with
    | zero => rfl
    | succ n ih => exact ih
  intro sf n
  refine ⟨h sf n, ?_⟩
  unfold interpolateString
  rw [h n n]

/-- C3 counterexample: the claim asserts that after interpolation no
`\x7b\x7bNAME\x7d\x7d`/`${NAME}` pattern remains whose NAME is present in
the context.  Interpolating `"\x7b${A\x7d\x7bB\x7d\x7d"` with
`A ↦ ""`, `B ↦ "x"` terminates and yields `"\x7b\x7bB\x7d\x7d"`, which
still contains the pattern `\x7b\x7bB\x7d\x7d` even though `B` is present
in the context: the `${}` pass runs after the `\x7b\x7b\x7d\x7d` pass and
its replacement spliced a fresh token. -/
theorem c3_known_key_pattern_survives :
    interpolateString 10 spliceCtx spliceStr = some ['{', '{', 'B', '}', '}'] ∧
    findTok1 ['{', '{', 'B', '}', '}'] = some ([], cs "B", []) ∧
    dget spliceCtx (cs "B") = some (.vstr (cs "x")) :=
  ⟨rfl, rfl, rfl⟩

/-- C3 (amended): interpolation replaces the leftmost
`\x7b\x7bNAME\x7d\x7d` (then `${NAME}`) occurrence by
`str(context.get(NAME, ""))` — the empty string when NAME is absent — and
re-scans; it recurses through lists and dicts preserving their shape, order
and keys, and passes non-string non-container values through unchanged.
When it terminates, no `${NAME}` pattern remains at all; a
`\x7b\x7bNAME\x7d\x7d` pattern whose NAME is present in the context may
however survive when a later `${}` replacement creates it. -/
theorem c3_interpolation_shape_and_replacement :
    (∀ (fuel : Nat) (ctx : CtxV) (z : Int),
        deepInterpolate (fuel + 1) ctx (.vint z) = some (.vint z)) ∧
    (∀ (fuel : Nat) (ctx : CtxV) (b : Bool),
        deepInterpolate (fuel + 1) ctx (.vbool b) = some (.vbool b)) ∧
    (∀ (fuel : Nat) (ctx : CtxV),
        deepInterpolate (fuel + 1) ctx .vnull = some .vnull) ∧
    (∀ (fuel : Nat) (ctx : CtxV) (l : List Val) (w : Val),
        deepInterpolate fuel ctx (.vlist l) = some w →
        ∃ l', w = .vlist l' ∧ l'.length = l.length) ∧
    (∀ (fuel : Nat) (ctx : CtxV) (d : List (List Char × Val)) (w : Val),
        deepInterpolate fuel ctx (.vdict d) = some w →
        ∃ d', w = .vdict d' ∧ d'.map Prod.fst = d.map Prod.fst) ∧
    (∀ (fuel : Nat) (ctx : CtxV) (s r : List Char),
        interpolateString fuel ctx s = some r → findTok2 r = none) ∧
    (∀ (sf n : Nat) (ctx : CtxV) (s b k a : List Char),
        findTok1 s = some (b, k, a) →
        loopTok1 sf ctx (n + 1) s = loopTok1 sf ctx n (b ++ ctxGetStr sf ctx k ++ a)) ∧
    (∀ (sf n : Nat) (ctx : CtxV) (s b k a : List Char),
        findTok2 s = some (b, k, a) →
        loopTok2 sf ctx (n + 1) s = loopTok2 sf ctx n (b ++ ctxGetStr sf ctx k ++ a)) := by
  refine ⟨fun _ _ _ => rfl, fun _ _ _ => rfl, fun _ _ => rfl, ?_, ?_, ?_, ?_, ?_⟩
  · intro fuel ctx l w h; exact deepInterpolate_vlist_shape l fuel ctx w h
  · intro fuel ctx d w h; exact deepInterpolate_vdict_keys d fuel ctx w h
  · intro fuel ctx s r h
    unfold interpolateString at h
    cases h1 : loopTok1 fuel ctx fuel s with
    | none => rw [h1] at h; exact absurd h (by simp)
    | some s1 => rw [h1] at h; exact loopTok2_no_leftover h
  · intro sf n ctx s b k a h
    conv_lhs => rw [loopTok1]
    rw [h]
  · intro sf n ctx s b k a h
    conv_lhs => rw [loopTok2]
    rw [h]

/-- C3 witness: the amended theorem applied at concrete inputs. -/
theorem c3_interpolation_shape_and_replacement_witness :
    (∃ l', Val.vlist [Val.vint 7] = Val.vlist l' ∧ l'.length = [Val.vint 7].length) ∧
    (∃ d', Val.vdict [(cs "k", Val.vstr (cs "y"))] = Val.vdict d' ∧
      d'.map Prod.fst = [(cs "k", Val.vstr (cs "y"))].map Prod.fst) ∧
    findTok2 (cs "done") = none ∧
    loopTok1 9 spliceCtx 3 selfTok = loopTok1 9 spliceCtx 2 ([] ++ ctxGetStr 9 spliceCtx (cs "A") ++ []) ∧
    loopTok2 9 spliceCtx 3 (cs "$\x7bB\x7d") = loopTok2 9 spliceCtx 2 ([] ++ ctxGetStr 9 spliceCtx (cs "B") ++ []) :=
  ⟨c3_interpolation_shape_and_replacement.2.2.2.1 3 [] [Val.vint 7] (Val.vlist [Val.vint 7]) rfl,
   c3_interpolation_shape_and_replacement.2.2.2.2.1 3 [] [(cs "k", Val.vstr (cs "y"))]
     (Val.vdict [(cs "k", Val.vstr (cs "y"))]) rfl,
   c3_interpolation_shape_and_replacement.2.2.2.2.2.1 4 [] (cs "done") (cs "done") rfl,
   c3_interpolation_shape_and_replacement.2.2.2.2.2.2.1 9 2 spliceCtx selfTok [] (cs "A") [] rfl,
   c3_interpolation_shape_and_replacement.2.2.2.2.2.2.2 9 2 spliceCtx (cs "$\x7bB\x7d") [] (cs "B") [] rfl⟩

/-- C5: `safe_run_command` dispatch — a dict carrying `argv` (a list)
executes via argv, independent of the shell kind; an `argv` that is not a
list raises `ValueError`; a string executes under the given shell kind; any
other item shape raises `ValueError`; a dict without `argv` also raises
`ValueError`. -/
theorem c5_safe_run_command_dispatch :
    (∀ (d : List (List Char × Val)) (l : List Val) (k : List Char),
        dget d (cs "argv") = some (.vlist l) →
        safe_run_command (.vdict d) k = .ok (.execArgv l)) ∧
    (∀ (d : List (List Char × Val)) (a : Val) (k k' : List Char),
        dget d (cs "argv") = some a →
        safe_run_command (.vdict d) k = safe_run_command (.vdict d) k') ∧
    (∀ (d : List (List Char × Val)) (a : Val) (k : List Char),
        dget d (cs "argv") = some a → (∀ l, a ≠ .vlist l) →
        safe_run_command (.vdict d) k = .error (cs "argv must be a list")) ∧
    (∀ (s k : List Char), safe_run_command (.vstr s) k = .ok (.execShell s k)) ∧
    (∀ (d : List (List Char × Val)) (k : List Char),
        dget d (cs "argv") = none →
        safe_run_command (.vdict d) k =
          .error (cs "Unsupported run item type; use string or argv mapping.")) ∧
    (∀ (z : Int) (k : List Char), safe_run_command (.vint z) k =
        .error (cs "Unsupported run item type; use string or argv mapping.")) ∧
    (∀ (b : Bool) (k : List Char), safe_run_command (.vbool b) k =
        .error (cs "Unsupported run item type; use string or argv mapping.")) ∧
    (∀ (k : List Char), safe_run_command .vnull k =
        .error (cs "Unsupported run item type; use string or argv mapping.")) ∧
    (∀ (l : List Val) (k : List Char), safe_run_command (.vlist l) k =
        .error (cs "Unsupported run item type; use string or argv mapping.")) := by
  refine ⟨?_, ?_, ?_, fun _ _ => rfl, ?_, fun _ _ => rfl, fun _ _ => rfl, fun _ => rfl, fun _ _ => rfl⟩
  · intro d l k h
    simp only [safe_run_command]
    rw [h]
  · intro d a k k' _
    simp only [safe_run_command]
  · intro d a k h hn
    simp only [safe_run_command]
    rw [h]
    cases a with
    | vlist l => exact absurd rfl (hn l)
    | vstr s => rfl
    | vint z => rfl
    | vbool b => rfl
    | vnull => rfl
    | vdict dd => rfl
  · intro d k h
    simp only [safe_run_command]
    rw [h]

/-- C5 witness: the dispatch theorem applied at concrete run-items. -/
theorem c5_safe_run_command_dispatch_witness :
    safe_run_command (.vdict [(cs "argv", .vlist [.vstr (cs "echo"), .vstr (cs "hi")])])
        (cs "powershell") = .ok (.execArgv [.vstr (cs "echo"), .vstr (cs "hi")]) ∧
    safe_run_command (.vdict [(cs "argv", .vstr (cs "oops"))]) (cs "bash") =
        .error (cs "argv must be a list") ∧
    safe_run_command (.vdict [(cs "cmd", .vstr (cs "x"))]) (cs "bash") =
        .error (cs "Unsupported run item type; use string or argv mapping.") :=
  ⟨c5_safe_run_command_dispatch.1 _ _ (cs "powershell") rfl,
   c5_safe_run_command_dispatch.2.2.1 _ (.vstr (cs "oops")) (cs "bash") rfl
     (fun _ h => Val.noConfusion h),
   c5_safe_run_command_dispatch.2.2.2.2.1 _ (cs "bash") rfl⟩

theorem pyTruthy_vstr_of_ne {n : List Char} (h : n ≠ []) : pyTruthy (.vstr n) = true := by
  obtain ⟨a, as, rfl⟩ := List.exists_cons_of_ne_nil h
  rfl

theorem resolve_eq_fromName {fuel : Nat} {e : List (List Char × Val)} {d : Option Val}
    (h : keyFalsyIn e (cs "url")) :
    resolve_repo_url fuel e d = resolveFromName fuel e d := by
  rcases h with h | ⟨v, hv, hf⟩
  · simp [resolve_repo_url, h]
  · simp [resolve_repo_url, hv, hf]

theorem fromName_shorthand {fuel : Nat} {e : List (List Char × Val)} {d : Option Val}
    {n : List Char} (hn : dget e (cs "name") = some (.vstr n)) (hne : n ≠ [])
    (ho : keyFalsyIn e (cs "org")) (hd : optFalsy d) :
    resolveFromName fuel e d =
      (if n.contains '/' then .ok (.vstr (ghShort n))
       else .error (cs "No org provided and default_org not set; cannot resolve repo URL")) := by
  have horg : pyOrV (dget e (cs "org")) d = d := by
    rcases ho with ho | ⟨v, hv, hf⟩
    · simp [pyOrV, ho]
    · simp [pyOrV, hv, hf]
  rcases hd with rfl | ⟨v, rfl, hf⟩
  · simp [resolveFromName, hn, horg, pyTruthy_vstr_of_ne hne]
  · simp [resolveFromName, hn, horg, pyTruthy_vstr_of_ne hne, hf]

/-- C6: `resolve_repo_url` precedence — a non-empty `entry.url` is returned
verbatim regardless of org/name; otherwise a non-empty `entry.org`
strictly overrides `defaultOrg` and combines with `entry.name` as
`https://github.com/org/name.git`; otherwise `defaultOrg` is used; with no
org available a name containing a slash is org/name shorthand; otherwise
resolution fails, and it also fails when neither `url` nor `name` is
present (or both are falsy). -/
theorem c6_resolve_repo_url_precedence :
    (∀ (fuel : Nat) (e : List (List Char × Val)) (d : Option Val) (u : List Char),
        dget e (cs "url") = some (.vstr u) → u ≠ [] →
        resolve_repo_url fuel e d = .ok (.vstr u)) ∧
    (∀ (fuel : Nat) (e : List (List Char × Val)) (d : Option Val) (n o : List Char),
        keyFalsyIn e (cs "url") →
        dget e (cs "name") = some (.vstr n) → n ≠ [] →
        dget e (cs "org") = some (.vstr o) → o ≠ [] →
        resolve_repo_url fuel e d = .ok (.vstr (ghUrl o n))) ∧
    (∀ (fuel : Nat) (e : List (List Char × Val)) (o' n : List Char),
        keyFalsyIn e (cs "url") →
        dget e (cs "name") = some (.vstr n) → n ≠ [] →
        keyFalsyIn e (cs "org") → o' ≠ [] →
        resolve_repo_url fuel e (some (.vstr o')) = .ok (.vstr (ghUrl o' n))) ∧
    (∀ (fuel : Nat) (e : List (List Char × Val)) (d : Option Val) (n : List Char),
        keyFalsyIn e (cs "url") →
        dget e (cs "name") = some (.vstr n) → n ≠ [] →
        keyFalsyIn e (cs "org") → optFalsy d →
        n.contains '/' = true →
        resolve_repo_url fuel e d = .ok (.vstr (ghShort n))) ∧
    (∀ (fuel : Nat) (e : List (List Char × Val)) (d : Option Val) (n : List Char),
        keyFalsyIn e (cs "url") →
        dget e (cs "name") = some (.vstr n) → n ≠ [] →
        keyFalsyIn e (cs "org") → optFalsy d →
        n.contains '/' = false →
        resolve_repo_url fuel e d =
          .error (cs "No org provided and default_org not set; cannot resolve repo URL")) ∧
    (∀ (fuel : Nat) (e : List (List Char × Val)) (d : Option Val),
        keyFalsyIn e (cs "url") → keyFalsyIn e (cs "name") →
        resolve_repo_url fuel e d = .error (cs "repo entry must contain url or name")) := by
  refine ⟨?_, ?_, ?_, ?_, ?_, ?_⟩
  · intro fuel e d u hu hne
    simp [resolve_repo_url, hu, pyTruthy_vstr_of_ne hne]
  · intro fuel e d n o hurl hn hne ho hoe
    rw [resolve_eq_fromName hurl]
    have horg : pyOrV (dget e (cs "org")) d = some (.vstr o) := by
      simp [pyOrV, ho, pyTruthy_vstr_of_ne hoe]
    simp [resolveFromName, hn, pyTruthy_vstr_of_ne hne, horg, pyTruthy_vstr_of_ne hoe, pyStrF]
  · intro fuel e o' n hurl hn hne ho hoe
    rw [resolve_eq_fromName hurl]
    have horg : pyOrV (dget e (cs "org")) (some (.vstr o')) = some (.vstr o') := by
      rcases ho with ho | ⟨v, hv, hf⟩
      · simp [pyOrV, ho]
      · simp [pyOrV, hv, hf]
    simp [resolveFromName, hn, pyTruthy_vstr_of_ne hne, horg, pyTruthy_vstr_of_ne hoe, pyStrF]
  · intro fuel e d n hurl hn hne ho hd hsl
    rw [resolve_eq_fromName hurl, fromName_shorthand hn hne ho hd, hsl]
    simp
  · intro fuel e d n hurl hn hne ho hd hsl
    rw [resolve_eq_fromName hurl, fromName_shorthand hn hne ho hd, hsl]
    simp
  · intro fuel e d hurl hname
    rw [resolve_eq_fromName hurl]
    rcases hname with h | ⟨v, hv, hf⟩
    · simp [resolveFromName, h]
    · simp [resolveFromName, hv, hf]

/-- C6 witness: the precedence theorem applied at the concrete entries of
the repository's clone test. -/
theorem c6_resolve_repo_url_precedence_witness :
    resolve_repo_url 5 [(cs "url", .vstr (cs "https://github.com/someone/explicit.git")),
        (cs "org", .vstr (cs "ignored"))] (some (.vstr (cs "my-org"))) =
      .ok (.vstr (cs "https://github.com/someone/explicit.git")) ∧
    resolve_repo_url 5 [(cs "name", .vstr (cs "custom-org-repo")), (cs "org", .vstr (cs "custom-org"))]
        (some (.vstr (cs "my-org"))) =
      .ok (.vstr (ghUrl (cs "custom-org") (cs "custom-org-repo"))) ∧
    resolve_repo_url 5 [(cs "name", .vstr (cs "service-a"))] (some (.vstr (cs "my-org"))) =
      .ok (.vstr (ghUrl (cs "my-org") (cs "service-a"))) ∧
    resolve_repo_url 5 [(cs "name", .vstr (cs "someone/repo"))] none =
      .ok (.vstr (ghShort (cs "someone/repo"))) ∧
    resolve_repo_url 5 [(cs "name", .vstr (cs "repo"))] none =
      .error (cs "No org provided and default_org not set; cannot resolve repo URL") ∧
    resolve_repo_url 5 [(cs "post_install", .vlist [])] none =
      .error (cs "repo entry must contain url or name") :=
  ⟨c6_resolve_repo_url_precedence.1 5 _ _ _ rfl (by decide),
   c6_resolve_repo_url_precedence.2.1 5 _ _ (cs "custom-org-repo") (cs "custom-org")
     (Or.inl rfl) rfl (by decide) rfl (by decide),
   c6_resolve_repo_url_precedence.2.2.1 5 _ (cs "my-org") (cs "service-a")
     (Or.inl rfl) rfl (by decide) (Or.inl rfl) (by decide),
   c6_resolve_repo_url_precedence.2.2.2.1 5 _ none (cs "someone/repo")
     (Or.inl rfl) rfl (by decide) (Or.inl rfl) (Or.inl rfl) (by decide),
   c6_resolve_repo_url_precedence.2.2.2.2.1 5 _ none (cs "repo")
     (Or.inl rfl) rfl (by decide) (Or.inl rfl) (Or.inl rfl) (by decide),
   c6_resolve_repo_url_precedence.2.2.2.2.2 5 _ none (Or.inl rfl) (Or.inl rfl)⟩

theorem parentDir_mem_parentsOf {p : List Char} (h : parentDir p ≠ []) :
    parentDir p ∈ parentsOf p := by
  cases p with
  | nil => exact absurd rfl h
  | cons a as =>
    show parentDir (a :: as) ∈ ancestorsAux (as.length + 1) (a :: as)
    simp only [ancestorsAux]
    rw [if_neg (by simpa using h)]
    exact List.mem_cons_self _ _

/-- C7: `write_file` — with `append=true` against a nonexistent path the
result contains exactly the given content (append degrades to create, not
an error); with `append=true` against an existing file the result is the
old content followed by the new; parent directories are created; and a
failing `chmod` for `mode` is swallowed: it never changes the written file
or directories, and the function is total either way. -/
theorem c7_write_file_append_and_chmod :
    (∀ (fuel : Nat) (fs : FS) (home p c : List Char) (mode : Option Val) (cf : Bool),
        aget fs.files (expandUser home p) = none →
        aget (write_file fuel fs home p c mode true cf).files (expandUser home p) = some c) ∧
    (∀ (fuel : Nat) (fs : FS) (home p c old : List Char) (mode : Option Val) (cf : Bool),
        aget fs.files (expandUser home p) = some old →
        aget (write_file fuel fs home p c mode true cf).files (expandUser home p) =
          some (old ++ c)) ∧
    (∀ (fuel : Nat) (fs : FS) (home p c : List Char) (mode : Option Val) (app cf : Bool),
        parentDir (expandUser home p) ≠ [] →
        parentDir (expandUser home p) ∈ (write_file fuel fs home p c mode app cf).dirs) ∧
    (∀ (fuel : Nat) (fs : FS) (home p c : List Char) (mode : Option Val) (app : Bool),
        (write_file fuel fs home p c mode app true).files =
          (write_file fuel fs home p c mode app false).files ∧
        (write_file fuel fs home p c mode app true).dirs =
          (write_file fuel fs home p c mode app false).dirs) := by
  refine ⟨?_, ?_, ?_, ?_⟩
  · intro fuel fs home p c mode cf h
    simp only [write_file, h]
    cases mode with
    | none => exact aget_aset_self _ _ _
    | some m =>
      by_cases hm : pyTruthy m
      · cases cf <;> simp [hm, aget_aset_self]
      · simp [hm, aget_aset_self]
  · intro fuel fs home p c old mode cf h
    simp only [write_file, h]
    cases mode with
    | none => exact aget_aset_self _ _ _
    | some m =>
      by_cases hm : pyTruthy m
      · cases cf <;> simp [hm, aget_aset_self]
      · simp [hm, aget_aset_self]
  · intro fuel fs home p c mode app cf h
    simp only [write_file]
    have hmem : parentDir (expandUser home p) ∈ parentsOf (expandUser home p) ++ fs.dirs :=
      List.mem_append_left _ (parentDir_mem_parentsOf h)
    cases mode with
    | none => simpa using hmem
    | some m =>
      by_cases hm : pyTruthy m
      · cases cf <;> simp [hm] <;> simpa using hmem
      · simp [hm]
        simpa using hmem
  · intro fuel fs home p c mode app
    cases mode with
    | none => exact ⟨rfl, rfl⟩
    | some m =>
      by_cases hm : pyTruthy m
      · constructor <;> simp [write_file, hm]
      · constructor <;> simp [write_file, hm]

/-- C7 witness: `write_file` evaluated on the append-to-missing and
append-to-existing cases of the repository's write test. -/
theorem c7_write_file_append_and_chmod_witness :
    aget (write_file 5 emptyFS (cs "/h") (cs "~/.config/f.txt") (cs "line1")
        (some (.vstr (cs "0600"))) true true).files (cs "/h/.config/f.txt") = some (cs "line1") ∧
    aget (write_file 5 ⟨[(cs "/h/.config/f.txt", cs "line1")], [], []⟩ (cs "/h")
        (cs "~/.config/f.txt") (cs "+line2") none true false).files (cs "/h/.config/f.txt") =
      some (cs "line1" ++ cs "+line2") ∧
    parentDir (cs "/h/.config/f.txt") ∈
      (write_file 5 emptyFS (cs "/h") (cs "~/.config/f.txt") (cs "line1") none false false).dirs :=
  ⟨c7_write_file_append_and_chmod.1 5 emptyFS (cs "/h") (cs "~/.config/f.txt") (cs "line1")
     (some (.vstr (cs "0600"))) true rfl,
   c7_write_file_append_and_chmod.2.1 5 ⟨[(cs "/h/.config/f.txt", cs "line1")], [], []⟩
     (cs "/h") (cs "~/.config/f.txt") (cs "+line2") (cs "line1") none true rfl,
   c7_write_file_append_and_chmod.2.2.1 5 emptyFS (cs "/h") (cs "~/.config/f.txt")
     (cs "line1") none false false (by decide)⟩

/-- C4 counterexample: the claim demands that a step whose `when` guard does
not match the grammar `IDENT (==|!=) VALUE` is skipped silently.  The empty
string does not match that grammar (`parseWhen [] = none`), yet a step with
`when: ""` is executed: `if when:` treats the empty guard as absent, so the
banner is printed and the run action executes. -/
theorem c4_empty_guard_step_runs :
    parseWhen [] = none ∧
    runStepCore baseCfg emptyFS 1 emptyWhenStep =
      ([Ev.banner (cs "Guarded"), Ev.exec (.execShell (cs "echo hi") (cs "bash"))],
       emptyFS, none) :=
  ⟨rfl, rfl⟩

/-- C4 (amended): for every step whose `when` guard is a *non-empty* string,
an unparseable guard evaluates to false and the step is skipped without
raising an error; every skipped step (unparseable or false guard) prints
nothing — no banner, no action output — and executes no action; and an
unparseable guard always evaluates to false.  (A step whose `when` is the
empty string is treated as unguarded and runs.) -/
theorem c4_unparseable_guard_skips_silently :
    (∀ (cfg : RunCfg) (fs : FS) (idx : Nat) (sd : List (List Char × Val)) (w : List Char),
        dget sd (cs "when") = some (.vstr w) → w ≠ [] →
        evalWhen cfg.fuel cfg.stepCtx w = false →
        runStepCore cfg fs idx sd = ([], fs, none)) ∧
    (∀ (cfg : RunCfg) (fs : FS) (idx : Nat) (sd : List (List Char × Val)) (w : List Char),
        dget sd (cs "when") = some (.vstr w) → w ≠ [] →
        parseWhen w = none →
        runStepCore cfg fs idx sd = ([], fs, none)) ∧
    (∀ (fuel : Nat) (ctx : CtxV) (w : List Char),
        parseWhen w = none → evalWhen fuel ctx w = false) := by
  have hskip : ∀ (cfg : RunCfg) (fs : FS) (idx : Nat) (sd : List (List Char × Val)) (w : List Char),
      dget sd (cs "when") = some (.vstr w) → w ≠ [] →
      evalWhen cfg.fuel cfg.stepCtx w = false →
      runStepCore cfg fs idx sd = ([], fs, none) := by
    intro cfg fs idx sd w h hne heval
    simp [runStepCore, h, pyTruthy_vstr_of_ne hne, heval]
  have hfc : ∀ (fuel : Nat) (ctx : CtxV) (w : List Char),
      parseWhen w = none → evalWhen fuel ctx w = false := by
    intro fuel ctx w h
    simp [evalWhen, h]
  exact ⟨hskip, fun cfg fs idx sd w h hne hp => hskip cfg fs idx sd w h hne (hfc _ _ _ hp), hfc⟩

/-- C4 witness: the amended theorem applied to a syntactically invalid
guard and to a false guard. -/
theorem c4_unparseable_guard_skips_silently_witness :
    runStepCore baseCfg emptyFS 1
      [(cs "when", Val.vstr (cs "not a guard")),
       (cs "run", Val.vlist [Val.vstr (cs "echo x")])] = ([], emptyFS, none) ∧
    runStepCore baseCfg emptyFS 2
      [(cs "when", Val.vstr (cs "OS==windows")),
       (cs "run", Val.vlist [Val.vstr (cs "echo y")])] = ([], emptyFS, none) :=
  ⟨c4_unparseable_guard_skips_silently.2.1 baseCfg emptyFS 1 _ (cs "not a guard")
     rfl (by decide) rfl,
   c4_unparseable_guard_skips_silently.1 baseCfg emptyFS 2 _ (cs "OS==windows")
     rfl (by decide) rfl⟩

theorem postLoop_no_exec_write (cfg : RunCfg) (coe : Bool) (sk : List Char) :
    ∀ items : List Val,
      ((postLoop cfg coe sk items).1.all (fun e => !e.isWriteEv && !e.isExec)) = true := by
  intro items
  induction items with
  | nil => rfl
  | cons p rest ih =>
    simp only [postLoop]
    split
    · rfl
    · split
      · rw [List.all_cons, ih]
        rfl
      · split
        · rw [List.all_cons, List.all_cons, ih]
          rfl
        · rfl

theorem cloneLoop_no_exec_write (cfg : RunCfg) (coe : Bool) (sk dp : List Char)
    (dorg : Option Val) :
    ∀ (entries : List Val) (fs : FS),
      ((cloneEntriesLoop cfg coe sk dp dorg fs entries).1.all
        (fun e => !e.isWriteEv && !e.isExec)) = true := by
  intro entries
  induction entries with
  | nil => intro fs; rfl
  | cons e rest ih =>
    intro fs
    simp only [cloneEntriesLoop]
    split
    · split
      · rfl
      · split
        · split
          · rw [List.all_cons, ih]
            rfl
          · split
            · split
              · rfl
              · split
                · dsimp only
                  rw [List.all_cons, postLoop_no_exec_write]
                  rfl
                · dsimp only
                  rw [List.all_append, List.all_cons, postLoop_no_exec_write, ih]
                  rfl
            · split
              · dsimp only
                rw [List.all_cons, List.all_cons, ih]
                rfl
              · rfl
        · rfl
    · rfl

/-- C10: action dispatch follows the fixed precedence `write_file` over
`clone_repos` over `run` — a step carrying `write_file` performs no run-item
execution, no post-install execution, no clone and no no-op logging (its
`run` list is silently ignored); a step carrying `clone_repos` but no
`write_file` writes no file and executes no run-list item; and the chosen
action does execute: a well-formed `write_file` block performs exactly its
write, a well-formed `clone_repos` block runs exactly its entry loop. -/
theorem c10_action_dispatch_precedence :
    (∀ (cfg : RunCfg) (fs : FS) (idx : Nat) (sd : List (List Char × Val)) (wfv : Val),
        dget sd (cs "write_file") = some wfv →
        ((runStepCore cfg fs idx sd).1.all
          (fun e => !e.isExec && !e.isPostExec && !e.isCloneEv && !e.isNoopMsg)) = true) ∧
    (∀ (cfg : RunCfg) (fs : FS) (idx : Nat) (sd : List (List Char × Val)) (crv : Val),
        dget sd (cs "write_file") = none → dget sd (cs "clone_repos") = some crv →
        ((runStepCore cfg fs idx sd).1.all (fun e => !e.isWriteEv && !e.isExec)) = true) ∧
    (∀ (cfg : RunCfg) (fs : FS) (idx : Nat) (sd wd : List (List Char × Val)) (p c : List Char),
        dget sd (cs "when") = none →
        dget sd (cs "write_file") = some (.vdict wd) →
        dget wd (cs "path") = some (.vstr p) →
        dget wd (cs "content") = some (.vstr c) →
        cfg.dryRun = false →
        runStepCore cfg fs idx sd =
          ([Ev.banner (stepNameOf cfg idx sd), Ev.writeEv (expandUser cfg.home p)],
           write_file cfg.fuel fs cfg.home p c (dget wd (cs "mode"))
             (match dget wd (cs "append") with
              | some v => pyTruthy v
              | none => false) cfg.chmodFails, none)) ∧
    (∀ (cfg : RunCfg) (fs : FS) (idx : Nat) (sd cr : List (List Char × Val))
        (ds ds' : List Char) (repos : List Val),
        dget sd (cs "when") = none →
        dget sd (cs "write_file") = none →
        dget sd (cs "clone_repos") = some (.vdict cr) →
        (cfg.osKey == cs "windows") = false →
        dget cr (cs "dest_unix") = some (.vstr ds) → ds ≠ [] →
        interpolateString cfg.fuel cfg.stepCtx ds = some ds' →
        dget cr (cs "repos") = some (.vlist repos) →
        cfg.dryRun = false →
        runStepCore cfg fs idx sd =
          (Ev.banner (stepNameOf cfg idx sd) ::
            (cloneEntriesLoop cfg (coeOf sd) (shellKindOf cfg sd) (expandUser cfg.home ds')
              (pyOrV (dget cr (cs "default_org")) (dget cfg.specInputs (cs "DEFAULT_ORG")))
              fs repos).1,
           (cloneEntriesLoop cfg (coeOf sd) (shellKindOf cfg sd) (expandUser cfg.home ds')
             (pyOrV (dget cr (cs "default_org")) (dget cfg.specInputs (cs "DEFAULT_ORG")))
             fs repos).2)) := by
  refine ⟨?_, ?_, ?_, ?_⟩
  · intro cfg fs idx sd wfv h
    simp only [runStepCore, h]
    repeat' split
    all_goals rfl
  · intro cfg fs idx sd crv hwf hcl
    simp only [runStepCore, hwf, hcl]
    repeat' split
    all_goals
      first
      | rfl
      | (dsimp only
         rw [List.all_append, cloneLoop_no_exec_write]
         rfl)
  · intro cfg fs idx sd wd p c hw hwf hp hc hdry
    simp [runStepCore, hw, hwf, hp, hc, hdry]
  · intro cfg fs idx sd cr ds ds' repos hw hwf hcl hos hdu hdse hint hrepos hdry
    simp [runStepCore, hw, hwf, hcl, hos, hdu, hint, hrepos, hdry,
      pyTruthyO, pyTruthy_vstr_of_ne hdse]

/-- C10 witness: a step carrying both `write_file` and `run` performs only
the write (no process execution), and a step carrying both `clone_repos`
and `run` performs only the clone action. -/
theorem c10_action_dispatch_precedence_witness :
    ((runStepCore baseCfg emptyFS 1
        [(cs "write_file", .vdict [(cs "path", .vstr (cs "/tmp/a")), (cs "content", .vstr (cs "x"))]),
         (cs "run", .vlist [.vstr (cs "echo ignored")])]).1.all
      (fun e => !e.isExec && !e.isPostExec && !e.isCloneEv && !e.isNoopMsg)) = true ∧
    ((runStepCore baseCfg emptyFS 1
        [(cs "clone_repos", .vdict [(cs "dest_unix", .vstr (cs "/w")), (cs "repos", .vlist [])]),
         (cs "run", .vlist [.vstr (cs "echo ignored")])]).1.all
      (fun e => !e.isWriteEv && !e.isExec)) = true ∧
    runStepCore baseCfg emptyFS 1
        [(cs "write_file", .vdict [(cs "path", .vstr (cs "/tmp/a")), (cs "content", .vstr (cs "x"))])] =
      ([Ev.banner (stepNameOf baseCfg 1
          [(cs "write_file", .vdict [(cs "path", .vstr (cs "/tmp/a")), (cs "content", .vstr (cs "x"))])]),
        Ev.writeEv (expandUser baseCfg.home (cs "/tmp/a"))],
       write_file baseCfg.fuel emptyFS baseCfg.home (cs "/tmp/a") (cs "x")
         (dget [(cs "path", Val.vstr (cs "/tmp/a")), (cs "content", Val.vstr (cs "x"))] (cs "mode"))
         false baseCfg.chmodFails, none) ∧
    runStepCore baseCfg emptyFS 1
        [(cs "clone_repos", .vdict [(cs "dest_unix", .vstr (cs "/w")), (cs "repos", .vlist [])])] =
      (Ev.banner (stepNameOf baseCfg 1
          [(cs "clone_repos", .vdict [(cs "dest_unix", .vstr (cs "/w")), (cs "repos", .vlist [])])]) ::
        (cloneEntriesLoop baseCfg
          (coeOf [(cs "clone_repos", Val.vdict [(cs "dest_unix", Val.vstr (cs "/w")), (cs "repos", Val.vlist [])])])
          (shellKindOf baseCfg [(cs "clone_repos", Val.vdict [(cs "dest_unix", Val.vstr (cs "/w")), (cs "repos", Val.vlist [])])])
          (expandUser baseCfg.home (cs "/w"))
          (pyOrV (dget [(cs "dest_unix", Val.vstr (cs "/w")), (cs "repos", Val.vlist [])] (cs "default_org"))
            (dget baseCfg.specInputs (cs "DEFAULT_ORG")))
          emptyFS []).1,
       (cloneEntriesLoop baseCfg
         (coeOf [(cs "clone_repos", Val.vdict [(cs "dest_unix", Val.vstr (cs "/w")), (cs "repos", Val.vlist [])])])
         (shellKindOf baseCfg [(cs "clone_repos", Val.vdict [(cs "dest_unix", Val.vstr (cs "/w")), (cs "repos", Val.vlist [])])])
         (expandUser baseCfg.home (cs "/w"))
         (pyOrV (dget [(cs "dest_unix", Val.vstr (cs "/w")), (cs "repos", Val.vlist [])] (cs "default_org"))
           (dget baseCfg.specInputs (cs "DEFAULT_ORG")))
         emptyFS []).2) :=
  ⟨c10_action_dispatch_precedence.1 baseCfg emptyFS 1 _
     (.vdict [(cs "path", .vstr (cs "/tmp/a")), (cs "content", .vstr (cs "x"))]) rfl,
   c10_action_dispatch_precedence.2.1 baseCfg emptyFS 1 _
     (.vdict [(cs "dest_unix", .vstr (cs "/w")), (cs "repos", .vlist [])]) rfl rfl,
   c10_action_dispatch_precedence.2.2.1 baseCfg emptyFS 1 _
     [(cs "path", .vstr (cs "/tmp/a")), (cs "content", .vstr (cs "x"))] (cs "/tmp/a") (cs "x")
     rfl rfl rfl rfl rfl,
   c10_action_dispatch_precedence.2.2.2 baseCfg emptyFS 1 _
     [(cs "dest_unix", .vstr (cs "/w")), (cs "repos", .vlist [])] (cs "/w") (cs "/w") []
     rfl rfl rfl rfl rfl (by decide) rfl rfl rfl⟩

/-- Oracle that fails the shell command `boom` and the clone of
`https://github.com/x/bad.git`, and succeeds elsewhere. -/
def failOracle : Action → Bool
  | .execShell s _ => !(s == cs "boom")
  | .execClone u _ => !(u == cs "https://github.com/x/bad.git")
  | _ => true

/-- `baseCfg` with the failing oracle. -/
def failCfg : RunCfg := { baseCfg with oracle := failOracle }

/-- C8: a run-item (or a repo entry's clone or post-install command) that
exits nonzero aborts the entire remaining run when `continue_on_error` is
false (the default): nothing after it executes and the error propagates;
with `continue_on_error` true, the failure is logged and execution proceeds
to the next item in the same list (for a clone failure: to the next repo
entry); and an erroring step stops every remaining step of the run. -/
theorem c8_continue_on_error_semantics :
    (∀ (cfg : RunCfg) (sk : List Char) (pre post : List Val) (bad : Val) (act : Action),
        (∀ i ∈ pre, ∃ a, safe_run_command i sk = .ok a ∧ cfg.oracle a = true) →
        safe_run_command bad sk = .ok act → cfg.oracle act = false →
        runItemsLoop cfg false sk (pre ++ bad :: post) =
          ((runItemsLoop cfg false sk pre).1 ++
            [Ev.exec act, Ev.errMsg (cs "run item failed")], some .procErr)) ∧
    (∀ (cfg : RunCfg) (sk : List Char) (pre post : List Val) (bad : Val) (act : Action),
        (∀ i ∈ pre, ∃ a, safe_run_command i sk = .ok a ∧ cfg.oracle a = true) →
        safe_run_command bad sk = .ok act → cfg.oracle act = false →
        runItemsLoop cfg true sk (pre ++ bad :: post) =
          ((runItemsLoop cfg true sk pre).1 ++
            Ev.exec act :: Ev.errMsg (cs "run item failed") :: Ev.contMsg ::
              (runItemsLoop cfg true sk post).1,
           (runItemsLoop cfg true sk post).2)) ∧
    (∀ (cfg : RunCfg) (sk : List Char) (pre post : List Val) (bad : Val) (act : Action),
        (∀ i ∈ pre, ∃ a, postActOf cfg sk i = some a ∧ cfg.oracle a = true) →
        postActOf cfg sk bad = some act → cfg.oracle act = false →
        postLoop cfg false sk (pre ++ bad :: post) =
          ((postLoop cfg false sk pre).1 ++
            [Ev.postExec act, Ev.errMsg (cs "post_install failed")], some .procErr)) ∧
    (∀ (cfg : RunCfg) (sk : List Char) (pre post : List Val) (bad : Val) (act : Action),
        (∀ i ∈ pre, ∃ a, postActOf cfg sk i = some a ∧ cfg.oracle a = true) →
        postActOf cfg sk bad = some act → cfg.oracle act = false →
        postLoop cfg true sk (pre ++ bad :: post) =
          ((postLoop cfg true sk pre).1 ++
            Ev.postExec act :: Ev.errMsg (cs "post_install failed") ::
              (postLoop cfg true sk post).1,
           (postLoop cfg true sk post).2)) ∧
    (∀ (cfg : RunCfg) (sk dp : List Char) (dorg : Option Val) (fs : FS)
        (ed : List (List Char × Val)) (rest : List Val) (url : List Char),
        resolve_repo_url cfg.fuel ed dorg = .ok (.vstr url) →
        fsExists fs (dp ++ '/' :: cloneNameOf cfg.fuel ed url) = false →
        cfg.oracle (.execClone url (dp ++ '/' :: cloneNameOf cfg.fuel ed url)) = false →
        cloneEntriesLoop cfg false sk dp dorg fs (.vdict ed :: rest) =
          ([Ev.cloneEv url (dp ++ '/' :: cloneNameOf cfg.fuel ed url),
            Ev.errMsg (cs "git clone failed")],
           { fs with dirs := parentsOf (dp ++ '/' :: cloneNameOf cfg.fuel ed url) ++ fs.dirs },
           some .procErr)) ∧
    (∀ (cfg : RunCfg) (sk dp : List Char) (dorg : Option Val) (fs : FS)
        (ed : List (List Char × Val)) (rest : List Val) (url : List Char),
        resolve_repo_url cfg.fuel ed dorg = .ok (.vstr url) →
        fsExists fs (dp ++ '/' :: cloneNameOf cfg.fuel ed url) = false →
        cfg.oracle (.execClone url (dp ++ '/' :: cloneNameOf cfg.fuel ed url)) = false →
        cloneEntriesLoop cfg true sk dp dorg fs (.vdict ed :: rest) =
          (Ev.cloneEv url (dp ++ '/' :: cloneNameOf cfg.fuel ed url) ::
             Ev.errMsg (cs "git clone failed") ::
             (cloneEntriesLoop cfg true sk dp dorg
               { fs with dirs := parentsOf (dp ++ '/' :: cloneNameOf cfg.fuel ed url) ++ fs.dirs }
               rest).1,
           (cloneEntriesLoop cfg true sk dp dorg
             { fs with dirs := parentsOf (dp ++ '/' :: cloneNameOf cfg.fuel ed url) ++ fs.dirs }
             rest).2)) ∧
    (∀ (cfg : RunCfg) (fs : FS) (idx : Nat) (st : Val) (rest : List Val) (e : RunErr),
        (runStepOne cfg fs idx st).2.2 = some e →
        runStepsAux cfg fs idx (st :: rest) =
          ((runStepOne cfg fs idx st).1, (runStepOne cfg fs idx st).2.1, some e)) := by
  refine ⟨?_, ?_, ?_, ?_, ?_, ?_, ?_⟩
  · intro cfg sk pre post bad act hall hb hf
    induction pre with
    | nil => simp [runItemsLoop, hb, hf]
    | cons i pre' ih =>
      obtain ⟨a, ha, hoa⟩ := hall i (List.mem_cons_self i pre')
      have hall' : ∀ j ∈ pre', ∃ a, safe_run_command j sk = .ok a ∧ cfg.oracle a = true :=
        fun j hj => hall j (List.mem_cons_of_mem i hj)
      simp [runItemsLoop, ha, hoa, ih hall']
  · intro cfg sk pre post bad act hall hb hf
    induction pre with
    | nil => simp [runItemsLoop, hb, hf]
    | cons i pre' ih =>
      obtain ⟨a, ha, hoa⟩ := hall i (List.mem_cons_self i pre')
      have hall' : ∀ j ∈ pre', ∃ a, safe_run_command j sk = .ok a ∧ cfg.oracle a = true :=
        fun j hj => hall j (List.mem_cons_of_mem i hj)
      simp [runItemsLoop, ha, hoa, ih hall']
  · intro cfg sk pre post bad act hall hb hf
    induction pre with
    | nil => simp [postLoop, hb, hf]
    | cons i pre' ih =>
      obtain ⟨a, ha, hoa⟩ := hall i (List.mem_cons_self i pre')
      have hall' : ∀ j ∈ pre', ∃ a, postActOf cfg sk j = some a ∧ cfg.oracle a = true :=
        fun j hj => hall j (List.mem_cons_of_mem i hj)
      simp [postLoop, ha, hoa, ih hall']
  · intro cfg sk pre post bad act hall hb hf
    induction pre with
    | nil => simp [postLoop, hb, hf]
    | cons i pre' ih =>
      obtain ⟨a, ha, hoa⟩ := hall i (List.mem_cons_self i pre')
      have hall' : ∀ j ∈ pre', ∃ a, postActOf cfg sk j = some a ∧ cfg.oracle a = true :=
        fun j hj => hall j (List.mem_cons_of_mem i hj)
      simp [postLoop, ha, hoa, ih hall']
  · intro cfg sk dp dorg fs ed rest url hres hex hcl
    simp [cloneEntriesLoop, hres, hex, hcl]
  · intro cfg sk dp dorg fs ed rest url hres hex hcl
    simp [cloneEntriesLoop, hres, hex, hcl]
  · intro cfg fs idx st rest e h
    simp [runStepsAux, h]

/-- C8 witness: the continuation semantics applied to concrete failing
run-items, post-install items, clone entries and steps. -/
theorem c8_continue_on_error_semantics_witness :
    runItemsLoop failCfg false (cs "bash")
        ([Val.vstr (cs "echo ok")] ++ Val.vstr (cs "boom") :: [Val.vstr (cs "echo after")]) =
      ((runItemsLoop failCfg false (cs "bash") [Val.vstr (cs "echo ok")]).1 ++
        [Ev.exec (.execShell (cs "boom") (cs "bash")),
         Ev.errMsg (cs "run item failed")], some .procErr) ∧
    runItemsLoop failCfg true (cs "bash")
        ([Val.vstr (cs "echo ok")] ++ Val.vstr (cs "boom") :: [Val.vstr (cs "echo after")]) =
      ((runItemsLoop failCfg true (cs "bash") [Val.vstr (cs "echo ok")]).1 ++
        Ev.exec (.execShell (cs "boom") (cs "bash")) ::
          Ev.errMsg (cs "run item failed") :: Ev.contMsg ::
          (runItemsLoop failCfg true (cs "bash") [Val.vstr (cs "echo after")]).1,
       (runItemsLoop failCfg true (cs "bash") [Val.vstr (cs "echo after")]).2) ∧
    postLoop failCfg false (cs "bash") ([] ++ Val.vstr (cs "boom") :: [Val.vstr (cs "echo z")]) =
      ((postLoop failCfg false (cs "bash") []).1 ++
        [Ev.postExec (.execShell (cs "boom") (cs "bash")),
         Ev.errMsg (cs "post_install failed")], some .procErr) ∧
    postLoop failCfg true (cs "bash") ([] ++ Val.vstr (cs "boom") :: [Val.vstr (cs "echo z")]) =
      ((postLoop failCfg true (cs "bash") []).1 ++
        Ev.postExec (.execShell (cs "boom") (cs "bash")) ::
          Ev.errMsg (cs "post_install failed") ::
          (postLoop failCfg true (cs "bash") [Val.vstr (cs "echo z")]).1,
       (postLoop failCfg true (cs "bash") [Val.vstr (cs "echo z")]).2) ∧
    cloneEntriesLoop failCfg false (cs "bash") (cs "/w") none emptyFS
        (Val.vdict [(cs "url", Val.vstr (cs "https://github.com/x/bad.git"))] :: []) =
      ([Ev.cloneEv (cs "https://github.com/x/bad.git")
          (cs "/w" ++ '/' :: cloneNameOf failCfg.fuel
            [(cs "url", Val.vstr (cs "https://github.com/x/bad.git"))] (cs "https://github.com/x/bad.git")),
        Ev.errMsg (cs "git clone failed")],
       { emptyFS with dirs := parentsOf (cs "/w" ++ '/' :: cloneNameOf failCfg.fuel
           [(cs "url", Val.vstr (cs "https://github.com/x/bad.git"))] (cs "https://github.com/x/bad.git"))
           ++ emptyFS.dirs },
       some .procErr) ∧
    runStepsAux failCfg emptyFS 1 (mkRunStep "S" "boom" :: [mkRunStep "T" "echo t"]) =
      ((runStepOne failCfg emptyFS 1 (mkRunStep "S" "boom")).1,
       (runStepOne failCfg emptyFS 1 (mkRunStep "S" "boom")).2.1, some .procErr) :=
  ⟨c8_continue_on_error_semantics.1 failCfg (cs "bash") [Val.vstr (cs "echo ok")]
     [Val.vstr (cs "echo after")] (Val.vstr (cs "boom")) (.execShell (cs "boom") (cs "bash"))
     (by intro i hi
         rw [List.mem_singleton] at hi
         subst hi
         exact ⟨.execShell (cs "echo ok") (cs "bash"), rfl, rfl⟩)
     rfl rfl,
   c8_continue_on_error_semantics.2.1 failCfg (cs "bash") [Val.vstr (cs "echo ok")]
     [Val.vstr (cs "echo after")] (Val.vstr (cs "boom")) (.execShell (cs "boom") (cs "bash"))
     (by intro i hi
         rw [List.mem_singleton] at hi
         subst hi
         exact ⟨.execShell (cs "echo ok") (cs "bash"), rfl, rfl⟩)
     rfl rfl,
   c8_continue_on_error_semantics.2.2.1 failCfg (cs "bash") [] [Val.vstr (cs "echo z")]
     (Val.vstr (cs "boom")) (.execShell (cs "boom") (cs "bash"))
     (by intro i hi; exact absurd hi (List.not_mem_nil i)) rfl rfl,
   c8_continue_on_error_semantics.2.2.2.1 failCfg (cs "bash") [] [Val.vstr (cs "echo z")]
     (Val.vstr (cs "boom")) (.execShell (cs "boom") (cs "bash"))
     (by intro i hi; exact absurd hi (List.not_mem_nil i)) rfl rfl,
   c8_continue_on_error_semantics.2.2.2.2.1 failCfg (cs "bash") (cs "/w") none emptyFS
     [(cs "url", Val.vstr (cs "https://github.com/x/bad.git"))] []
     (cs "https://github.com/x/bad.git") rfl rfl rfl,
   c8_continue_on_error_semantics.2.2.2.2.2.2 failCfg emptyFS 1 (mkRunStep "S" "boom")
     [mkRunStep "T" "echo t"] .procErr rfl⟩

/-- C9: the executed step list is exactly `common.steps` followed by the
active OS's steps in their literal order — the step loop over `s1 ++ s2`
runs all of `s1` first (threading the filesystem and step index) and then
all of `s2` — and with `common.steps=[A,B]`, `os.ubuntu.steps=[C,D]` under
OS ubuntu the emitted effect order is exactly A, B, C, D. -/
theorem c9_step_order_common_then_os :
    (∀ (spec : List (List Char × Val)) (osKey : List Char),
        stepsOf spec osKey = specCommonSteps spec ++ specOsSteps spec osKey) ∧
    (∀ (cfg : RunCfg) (s1 : List Val) (fs : FS) (idx : Nat) (s2 : List Val),
        (runStepsAux cfg fs idx s1).2.2 = none →
        runStepsAux cfg fs idx (s1 ++ s2) =
          ((runStepsAux cfg fs idx s1).1 ++
             (runStepsAux cfg (runStepsAux cfg fs idx s1).2.1 (idx + s1.length) s2).1,
           (runStepsAux cfg (runStepsAux cfg fs idx s1).2.1 (idx + s1.length) s2).2)) ∧
    runSpecModel (fun _ => true) false false (cs "ubuntu") (cs "/h") [] [] 50 orderSpec emptyFS =
      ([Ev.banner (cs "A"), Ev.exec (.execShell (cs "echo A") (cs "bash")),
        Ev.banner (cs "B"), Ev.exec (.execShell (cs "echo B") (cs "bash")),
        Ev.banner (cs "C"), Ev.exec (.execShell (cs "echo C") (cs "bash")),
        Ev.banner (cs "D"), Ev.exec (.execShell (cs "echo D") (cs "bash")),
        Ev.doneMsg], emptyFS, none) := by
  refine ⟨fun _ _ => rfl, ?_, rfl⟩
  intro cfg s1
  induction s1 with
  | nil => intro fs idx s2 _; simp [runStepsAux]
  | cons st s1' ih =>
    intro fs idx s2 h
    have hr : (runStepOne cfg fs idx st).2.2 = none := by
      cases hr2 : (runStepOne cfg fs idx st).2.2 with
      | none => rfl
      | some e =>
        have : (runStepsAux cfg fs idx (st :: s1')).2.2 = some e := by
          simp [runStepsAux, hr2]
        rw [h] at this
        exact Option.noConfusion this
    have hrest : (runStepsAux cfg (runStepOne cfg fs idx st).2.1 (idx + 1) s1').2.2 = none := by
      have h' := h
      simp only [runStepsAux, hr] at h'
      exact h'
    have harith : idx + 1 + s1'.length = idx + (s1'.length + 1) := by omega
    simp only [List.cons_append, runStepsAux, hr, List.length_cons, List.append_eq]
    rw [ih _ _ _ hrest, harith]
    simp [List.append_assoc]

/-- C9 witness: the composition law applied to the two halves of the
concrete A,B / C,D spec. -/
theorem c9_step_order_common_then_os_witness :
    runStepsAux baseCfg emptyFS 1
        ([mkRunStep "A" "echo A", mkRunStep "B" "echo B"] ++
         [mkRunStep "C" "echo C", mkRunStep "D" "echo D"]) =
      ((runStepsAux baseCfg emptyFS 1 [mkRunStep "A" "echo A", mkRunStep "B" "echo B"]).1 ++
         (runStepsAux baseCfg
           (runStepsAux baseCfg emptyFS 1 [mkRunStep "A" "echo A", mkRunStep "B" "echo B"]).2.1
           (1 + [mkRunStep "A" "echo A", mkRunStep "B" "echo B"].length)
           [mkRunStep "C" "echo C", mkRunStep "D" "echo D"]).1,
       (runStepsAux baseCfg
         (runStepsAux baseCfg emptyFS 1 [mkRunStep "A" "echo A", mkRunStep "B" "echo B"]).2.1
         (1 + [mkRunStep "A" "echo A", mkRunStep "B" "echo B"].length)
         [mkRunStep "C" "echo C", mkRunStep "D" "echo D"]).2) :=
  c9_step_order_common_then_os.2.1 baseCfg
    [mkRunStep "A" "echo A", mkRunStep "B" "echo B"] emptyFS 1
    [mkRunStep "C" "echo C", mkRunStep "D" "echo D"] rfl

/-- C1: the claim (and the repository's own tests) require `run_spec` to
abort with a "workspace root already exists" message, nonzero status and
zero executed steps whenever the expanded workspace-root input path already
exists.  The code contains no such guard: on the guard test's own spec —
`WORKSPACE_ROOT = ~/dev/workspace` with that directory already present —
the run prints the step banner, executes the step's command, prints
"All steps complete." and finishes without error (exit status 0). -/
theorem c1_workspace_guard_missing :
    fsExists guardFS (expandUser (cs "/h") (cs "~/dev/workspace")) = true ∧
    runSpecModel (fun _ => true) false false (cs "ubuntu") (cs "/h") [] [] 50 guardSpec guardFS =
      ([Ev.banner (cs "Dummy step"),
        Ev.exec (.execShell (cs "echo should-not-run") (cs "bash")),
        Ev.doneMsg], guardFS, none) :=
  ⟨rfl, rfl⟩

end Forgesetup
